import Mathlib

/-!
Verification development for the agent-backed streaming turn orchestrator
(server side of the mcp-autotest repository).

The definitions below are a shallow embedding of the TypeScript sources:

* `src/server/src/llm/title-generator.ts` and the chat streaming service in
  the same module group: `generateTitle`, `sendMessageStreaming`,
  `saveAssistantMessage`, `mergeAdjacentTextEvents`,
  `generateAndUpdateTitle`;
* `src/server/src/modules/conversation/conversation.service.ts`: the
  cache-consistent persistence layer (`listConversations`, `getConversation`,
  `updateConversation`, `deleteConversation`, `createMessage`,
  `listMessages`, `createMessageInternal`, and the invalidation helpers);
* the process launcher `spawnAgentProcess` (agent-process spawning module):
  the stdin write/close block.

Effectful TypeScript code is embedded as explicit state passing: the
relational store and the key-value cache are explicit values, thrown
errors become `Except`-style results, and the points where an external
system may fail (a cache call throwing, the completion endpoint failing,
a stream write throwing) are explicit boolean/variant parameters.
The streaming generator is embedded as a deterministic transition system
driven by a script of environment inputs: what the worker pushed into the
queue while the relay loop was waiting, and whether the worker process was
observed alive.
-/

namespace Autotest

/-! ## Transcript events and `mergeAdjacentTextEvents`

`mergeAdjacentTextEvents` (title-generator.ts, chat service section) folds
over the collected transcript entries, concatenating each text entry into
the previous result entry when that one is also a text entry, and copying
every other entry through. -/

/-- A persisted transcript entry, as pushed to `assistantEvents` by the
drain loop of `sendMessageStreaming`: text, thinking, tool invocation or
tool result. -/
inductive TEvent where
  | text (content : String)
  | thinking (content : String)
  | tool_call (id name input : String)
  | tool_result (id name output : String) (success : Bool)
deriving DecidableEq

/-- Whether a transcript entry is a text entry (`event.type === 'text'`). -/
def isTextEvent : TEvent → Bool
  | .text _ => true
  | _ => false

/-- One iteration of the merge loop: if the incoming event and the last
entry of the result are both text, append the content to the last entry
(`last.content = last.content + event.content`); otherwise push the event. -/
def mergeStep (result : List TEvent) (event : TEvent) : List TEvent :=
  match event, result.getLast? with
  | .text t, some (.text s) => result.dropLast ++ [.text (s ++ t)]
  | _, _ => result ++ [event]

/-- `mergeAdjacentTextEvents` from title-generator.ts: merge adjacent text
events to reduce storage size. -/
def mergeAdjacentTextEvents (events : List TEvent) : List TEvent :=
  events.foldl mergeStep []

/-- The normal-form invariant of a merged transcript: no two adjacent
entries are both text entries. -/
def noAdjacentText : List TEvent → Bool
  | e1 :: e2 :: rest => (!(isTextEvent e1 && isTextEvent e2)) && noAdjacentText (e2 :: rest)
  | _ => true

theorem noAdjacentText_tail {e : TEvent} {l : List TEvent}
    (h : noAdjacentText (e :: l) = true) : noAdjacentText l = true := by
  cases l with
  | nil => rfl
  | cons f r =>
    simp only [noAdjacentText, Bool.and_eq_true] at h
    exact h.2

theorem noAdjacentText_append_right {a b : List TEvent}
    (h : noAdjacentText (a ++ b) = true) : noAdjacentText b = true := by
  induction a with
  | nil => exact h
  | cons x a ih => exact ih (noAdjacentText_tail h)

theorem noAdjacentText_snoc {r : List TEvent} {e : TEvent}
    (h : noAdjacentText r = true)
    (hseam : ∀ x, r.getLast? = some x → (isTextEvent x && isTextEvent e) = false) :
    noAdjacentText (r ++ [e]) = true := by
  induction r with
  | nil => rfl
  | cons x r ih =>
    cases r with
    | nil =>
      have hx := hseam x rfl
      simp [noAdjacentText, hx]
    | cons y r' =>
      simp only [noAdjacentText, Bool.and_eq_true] at h
      have h2 : noAdjacentText ((y :: r') ++ [e]) = true :=
        ih h.2 (fun z hz => hseam z hz)
      simp only [List.cons_append, noAdjacentText, Bool.and_eq_true]
      exact ⟨h.1, h2⟩

theorem noAdjacentText_replaceLast {a : List TEvent} {x y : TEvent}
    (h : noAdjacentText (a ++ [x]) = true) (hxy : isTextEvent y = isTextEvent x) :
    noAdjacentText (a ++ [y]) = true := by
  induction a with
  | nil => rfl
  | cons z a ih =>
    cases a with
    | nil =>
      simp only [List.cons_append, List.nil_append, noAdjacentText, Bool.and_eq_true] at h ⊢
      refine ⟨?_, trivial⟩
      rw [hxy]
      exact h.1
    | cons w a' =>
      simp only [List.cons_append, noAdjacentText, Bool.and_eq_true] at h ⊢
      exact ⟨h.1, ih h.2⟩

theorem noAdjacentText_mergeStep {r : List TEvent} (e : TEvent)
    (h : noAdjacentText r = true) : noAdjacentText (mergeStep r e) = true := by
  rcases hg : r.getLast? with _ | x
  · -- empty list: getLast? = none forces r = []
    cases r with
    | nil =>
      cases e <;> rfl
    | cons a r' => simp at hg
  · have hr : r.dropLast ++ [x] = r := List.dropLast_append_getLast? x hg
    cases e with
    | text t =>
      cases x with
      | text s =>
        have hm : mergeStep r (.text t) = r.dropLast ++ [.text (s ++ t)] := by
          simp [mergeStep, hg]
        rw [hm]
        exact noAdjacentText_replaceLast (x := .text s) (by rw [hr]; exact h) rfl
      | thinking c =>
        have hm : mergeStep r (.text t) = r ++ [.text t] := by simp [mergeStep, hg]
        rw [hm]
        exact noAdjacentText_snoc h (fun z hz => by
          rw [hg] at hz; cases hz; rfl)
      | tool_call i n inp =>
        have hm : mergeStep r (.text t) = r ++ [.text t] := by simp [mergeStep, hg]
        rw [hm]
        exact noAdjacentText_snoc h (fun z hz => by
          rw [hg] at hz; cases hz; rfl)
      | tool_result i n o s =>
        have hm : mergeStep r (.text t) = r ++ [.text t] := by simp [mergeStep, hg]
        rw [hm]
        exact noAdjacentText_snoc h (fun z hz => by
          rw [hg] at hz; cases hz; rfl)
    | thinking c =>
      have hm : mergeStep r (.thinking c) = r ++ [.thinking c] := by
        simp [mergeStep, hg]
      rw [hm]
      exact noAdjacentText_snoc h (fun z _ => by cases z <;> rfl)
    | tool_call i n inp =>
      have hm : mergeStep r (.tool_call i n inp) = r ++ [.tool_call i n inp] := by
        simp [mergeStep, hg]
      rw [hm]
      exact noAdjacentText_snoc h (fun z _ => by cases z <;> rfl)
    | tool_result i n o s =>
      have hm : mergeStep r (.tool_result i n o s) = r ++ [.tool_result i n o s] := by
        simp [mergeStep, hg]
      rw [hm]
      exact noAdjacentText_snoc h (fun z _ => by cases z <;> rfl)

theorem noAdjacentText_foldl (l : List TEvent) :
    ∀ r : List TEvent, noAdjacentText r = true →
      noAdjacentText (l.foldl mergeStep r) = true := by
  induction l with
  | nil => intro r h; exact h
  | cons e l ih => intro r h; exact ih _ (noAdjacentText_mergeStep e h)

theorem mergeStep_no_merge {r : List TEvent} {e : TEvent}
    (hseam : ∀ x, r.getLast? = some x → (isTextEvent x && isTextEvent e) = false) :
    mergeStep r e = r ++ [e] := by
  rcases hg : r.getLast? with _ | x
  · cases e <;> simp [mergeStep, hg]
  · cases e with
    | text t =>
      cases x with
      | text s =>
        have := hseam _ hg
        simp [isTextEvent] at this
      | thinking c => simp [mergeStep, hg]
      | tool_call i n inp => simp [mergeStep, hg]
      | tool_result i n o s => simp [mergeStep, hg]
    | thinking c => simp [mergeStep, hg]
    | tool_call i n inp => simp [mergeStep, hg]
    | tool_result i n o s => simp [mergeStep, hg]

theorem foldl_mergeStep_fixed (m : List TEvent) :
    ∀ r : List TEvent, r ≠ [] → noAdjacentText (r ++ m) = true →
      m.foldl mergeStep r = r ++ m := by
  induction m with
  | nil => intro r _ _; simp
  | cons e m ih =>
    intro r hr h
    have hseam : ∀ x, r.getLast? = some x → (isTextEvent x && isTextEvent e) = false := by
      intro x hx
      have hr' : r.dropLast ++ [x] = r := List.dropLast_append_getLast? x hx
      have hx2 : noAdjacentText (x :: e :: m) = true := by
        have h2 : noAdjacentText (r.dropLast ++ (x :: e :: m)) = true := by
          have : r.dropLast ++ (x :: e :: m) = (r.dropLast ++ [x]) ++ (e :: m) := by
            simp
          rw [this, hr']
          exact h
        exact noAdjacentText_append_right h2
      simp only [noAdjacentText, Bool.and_eq_true, Bool.not_eq_true'] at hx2
      exact hx2.1
    rw [List.foldl_cons, mergeStep_no_merge hseam]
    have h2 : noAdjacentText ((r ++ [e]) ++ m) = true := by
      have : (r ++ [e]) ++ m = r ++ (e :: m) := by simp
      rw [this]
      exact h
    have := ih (r ++ [e]) (by simp) h2
    rw [this]
    simp

theorem mergeAdjacentTextEvents_of_noAdjacentText {m : List TEvent}
    (h : noAdjacentText m = true) : mergeAdjacentTextEvents m = m := by
  cases m with
  | nil => rfl
  | cons e m' =>
    have h0 : mergeStep [] e = [e] := by cases e <;> rfl
    unfold mergeAdjacentTextEvents
    rw [List.foldl_cons, h0]
    exact foldl_mergeStep_fixed m' [e] (by simp) h

/-- Claim C8: `mergeAdjacentTextEvents` is idempotent — for every list of
transcript event records, merging adjacent text entries twice produces the
same result as merging once. -/
theorem mergeAdjacentTextEvents_idempotent (events : List TEvent) :
    mergeAdjacentTextEvents (mergeAdjacentTextEvents events) =
      mergeAdjacentTextEvents events :=
  mergeAdjacentTextEvents_of_noAdjacentText (noAdjacentText_foldl events [] rfl)

/-! ## The streaming generator `sendMessageStreaming`

The generator is embedded as a deterministic system. The environment is a
script: for each iteration of the outer relay loop, the list of messages
pushed into `messageQueue` while the loop waited (the empty list means the
30-second timer elapsed with nothing pushed; `Option.none` in the list is
the null end-of-run sentinel pushed by the run registry), plus the value
the `agentManager.isRunning(replyId)` liveness check would return. Store
writes and records yielded to the client are collected into one ordered
list of `TurnAction`s. -/

/-- A message dequeued from the per-run queue, as classified by the drain
loop of `sendMessageStreaming` (`msgRecord.type`). `other` covers every
type outside the four persisted categories (for example
`title_generated`), which is relayed but not added to the transcript. -/
inductive AgentMsg where
  | chunk (content : String)
  | text (content : String)
  | thinking (content : String)
  | tool_call (id name input : String)
  | tool_result (id name output : String) (success : Bool)
  | other (type_ : String)
deriving DecidableEq

/-- A record yielded by the generator to the client stream. -/
inductive OutRec where
  | start (conversation_id reply_id : String)
  | relay (m : AgentMsg)
  | heartbeat
  | done (conversation_id : String)
deriving DecidableEq

/-- An observable action of the generator, in program order: a user-message
persistence call (`createMessageInternal`), an assistant-message
persistence attempt (`saveAssistantMessage`), or a record yielded to the
client stream. -/
inductive TurnAction where
  | saveUser (conversationId role content messageId : String)
  | saveAssistant (conversationId content : String) (events : List TEvent)
  | yieldRec (r : OutRec)
deriving DecidableEq

/-- The assistant message body: the accumulated text buffer joined, or the
fixed placeholder when empty (`content || '(no text content)'`). -/
def assistantPayloadContent (buffer : List String) : String :=
  if String.join buffer = "" then "(no text content)" else String.join buffer

/-- The classification step of the drain loop: chunk/text append to the
accumulated content and the transcript; thinking/tool_call/tool_result
append only to the transcript; anything else alters neither. -/
def classify (m : AgentMsg) (buffer : List String) (events : List TEvent) :
    List String × List TEvent :=
  match m with
  | .chunk c => (buffer ++ [c], events ++ [.text c])
  | .text c => (buffer ++ [c], events ++ [.text c])
  | .thinking c => (buffer, events ++ [.thinking c])
  | .tool_call i n inp => (buffer, events ++ [.tool_call i n inp])
  | .tool_result i n o s => (buffer, events ++ [.tool_result i n o s])
  | .other _ => (buffer, events)

/-- `classify` folded over a list of messages. -/
def classifyAll (msgs : List AgentMsg) (b : List String) (e : List TEvent) :
    List String × List TEvent :=
  match msgs with
  | [] => (b, e)
  | m :: rest => classifyAll rest (classify m b e).1 (classify m b e).2

/-- Result of the inner `while (messageQueue.length > 0)` drain loop. -/
structure DrainResult where
  outputs : List TurnAction
  buffer : List String
  events : List TEvent
  sentinelHit : Bool
deriving DecidableEq

/-- The inner drain loop of `sendMessageStreaming`: dequeue messages one at
a time; on the null sentinel persist the assistant message, yield `done`
and return from the generator (the rest of the queue is never read);
otherwise classify the message for the transcript and yield it. -/
def drainLoop (cid : String) :
    List (Option AgentMsg) → List String → List TEvent → DrainResult
  | [], b, e => ⟨[], b, e, false⟩
  | none :: _rest, b, e =>
      ⟨[TurnAction.saveAssistant cid (assistantPayloadContent b) (mergeAdjacentTextEvents e),
        TurnAction.yieldRec (OutRec.done cid)], b, e, true⟩
  | some m :: rest, b, e =>
      let r := drainLoop cid rest (classify m b e).1 (classify m b e).2
      ⟨TurnAction.yieldRec (OutRec.relay m) :: r.outputs, r.buffer, r.events, r.sentinelHit⟩

/-- One iteration of the outer relay loop, as seen by the environment. -/
structure IterInput where
  /-- Messages pushed to the queue during the wait; `[]` means the
  30-second timer elapsed with nothing pushed. -/
  arrivals : List (Option AgentMsg)
  /-- The value `agentManager.isRunning(replyId)` returns at the bottom
  liveness check. -/
  running : Bool
deriving DecidableEq

/-- Loop-carried state of the relay loop. -/
structure TurnState where
  queue : List (Option AgentMsg)
  buffer : List String
  events : List TEvent
deriving DecidableEq

/-- Result of one outer-loop iteration: actions performed, and the next
state (`none` when the generator finished this turn). -/
structure IterResult where
  outputs : List TurnAction
  next : Option TurnState
deriving DecidableEq

/-- One iteration of the outer relay loop of `sendMessageStreaming`:
if the queue is empty, block until a push or the 30-second timeout (the
arrivals land at the queue tail); drain the queue; then, with the drained
queue empty, break when the liveness check fails — falling through to the
post-loop persistence and `done` — or yield a heartbeat and loop again. -/
def iterQueue (s : TurnState) (input : IterInput) : List (Option AgentMsg) :=
  if s.queue.isEmpty then s.queue ++ input.arrivals else s.queue

def loopIteration (cid : String) (s : TurnState) (input : IterInput) : IterResult :=
  let r := drainLoop cid (iterQueue s input) s.buffer s.events
  if r.sentinelHit then
    ⟨r.outputs, none⟩
  else if input.running then
    ⟨r.outputs ++ [TurnAction.yieldRec OutRec.heartbeat], some ⟨[], r.buffer, r.events⟩⟩
  else
    ⟨r.outputs ++
       [TurnAction.saveAssistant cid (assistantPayloadContent r.buffer)
          (mergeAdjacentTextEvents r.events),
        TurnAction.yieldRec (OutRec.done cid)], none⟩

/-- Result of running the relay loop against a script of iteration
inputs. `terminated = false` means the script ended with the loop still
going (the turn did not reach `done` within the scripted environment). -/
structure RunResult where
  outputs : List TurnAction
  terminated : Bool
deriving DecidableEq

/-- The outer relay loop driven by a script of iteration inputs. -/
def runLoop (cid : String) : List IterInput → TurnState → RunResult
  | [], _ => ⟨[], false⟩
  | input :: rest, s =>
      let r := loopIteration cid s input
      match r.next with
      | none => ⟨r.outputs, true⟩
      | some s' =>
          ⟨r.outputs ++ (runLoop cid rest s').outputs, (runLoop cid rest s').terminated⟩

/-- The whole generator `sendMessageStreaming`: resolve the conversation id
(creating a conversation when none is supplied), persist the user message,
yield the `start` record, then run the relay loop. `newConversationId` is
the id the conversation-creation path would mint; `userMessageId` the
uuid of the user message; `replyId` the run identifier. -/
def sendMessageStreaming (message : String) (conversationId : Option String)
    (newConversationId replyId userMessageId : String)
    (script : List IterInput) : RunResult :=
  let cid := conversationId.getD newConversationId
  let r := runLoop cid script ⟨[], [], []⟩
  ⟨TurnAction.saveUser cid "user" message userMessageId ::
     TurnAction.yieldRec (OutRec.start cid replyId) :: r.outputs, r.terminated⟩

/-! ### Counting the persistence attempts and terminal records -/

/-- Whether an action is an assistant-message persistence attempt. -/
def isSaveAssistant : TurnAction → Bool
  | .saveAssistant _ _ _ => true
  | _ => false

/-- Whether an action is a user-message persistence call. -/
def isSaveUser : TurnAction → Bool
  | .saveUser _ _ _ _ => true
  | _ => false

/-- Whether an action yields a `done` record. -/
def isDoneRec : TurnAction → Bool
  | .yieldRec (.done _) => true
  | _ => false

/-- Whether an action yields any record to the client stream. -/
def isYieldRec : TurnAction → Bool
  | .yieldRec _ => true
  | _ => false

theorem drainLoop_counts (cid : String) (q : List (Option AgentMsg)) :
    ∀ (b : List String) (e : List TEvent),
      (drainLoop cid q b e).outputs.countP isSaveAssistant =
        (if (drainLoop cid q b e).sentinelHit then 1 else 0) ∧
      (drainLoop cid q b e).outputs.countP isDoneRec =
        (if (drainLoop cid q b e).sentinelHit then 1 else 0) ∧
      (drainLoop cid q b e).outputs.countP isSaveUser = 0 := by
  induction q with
  | nil => intro b e; simp [drainLoop]
  | cons o rest ih =>
    intro b e
    cases o with
    | none => simp [drainLoop, List.countP_cons, isSaveAssistant, isDoneRec, isSaveUser]
    | some m =>
      have := ih (classify m b e).1 (classify m b e).2
      simp only [drainLoop, List.countP_cons, isSaveAssistant, isDoneRec, isSaveUser,
        cond_false, Nat.add_zero] at this ⊢
      exact this

theorem loopIteration_eq_sentinel {cid : String} {s : TurnState} {input : IterInput}
    (hs : (drainLoop cid (iterQueue s input) s.buffer s.events).sentinelHit = true) :
    loopIteration cid s input =
      ⟨(drainLoop cid (iterQueue s input) s.buffer s.events).outputs, none⟩ := by
  simp [loopIteration, hs]

theorem loopIteration_eq_heartbeat {cid : String} {s : TurnState} {input : IterInput}
    (hs : (drainLoop cid (iterQueue s input) s.buffer s.events).sentinelHit = false)
    (hrun : input.running = true) :
    loopIteration cid s input =
      ⟨(drainLoop cid (iterQueue s input) s.buffer s.events).outputs ++
          [TurnAction.yieldRec OutRec.heartbeat],
        some ⟨[], (drainLoop cid (iterQueue s input) s.buffer s.events).buffer,
          (drainLoop cid (iterQueue s input) s.buffer s.events).events⟩⟩ := by
  simp [loopIteration, hs, hrun]

theorem loopIteration_eq_break {cid : String} {s : TurnState} {input : IterInput}
    (hs : (drainLoop cid (iterQueue s input) s.buffer s.events).sentinelHit = false)
    (hrun : input.running = false) :
    loopIteration cid s input =
      ⟨(drainLoop cid (iterQueue s input) s.buffer s.events).outputs ++
          [TurnAction.saveAssistant cid
              (assistantPayloadContent (drainLoop cid (iterQueue s input) s.buffer s.events).buffer)
              (mergeAdjacentTextEvents (drainLoop cid (iterQueue s input) s.buffer s.events).events),
            TurnAction.yieldRec (OutRec.done cid)], none⟩ := by
  simp [loopIteration, hs, hrun]

theorem loopIteration_counts (cid : String) (s : TurnState) (input : IterInput) :
    ((loopIteration cid s input).next = none →
        (loopIteration cid s input).outputs.countP isSaveAssistant = 1 ∧
        (loopIteration cid s input).outputs.countP isDoneRec = 1 ∧
        (loopIteration cid s input).outputs.countP isSaveUser = 0) ∧
    ((loopIteration cid s input).next ≠ none →
        (loopIteration cid s input).outputs.countP isSaveAssistant = 0 ∧
        (loopIteration cid s input).outputs.countP isDoneRec = 0 ∧
        (loopIteration cid s input).outputs.countP isSaveUser = 0) := by
  have hd := drainLoop_counts cid (iterQueue s input) s.buffer s.events
  by_cases hs : (drainLoop cid (iterQueue s input) s.buffer s.events).sentinelHit
  · rw [loopIteration_eq_sentinel hs]
    rw [hs] at hd
    refine ⟨fun _ => ?_, fun h => absurd rfl h⟩
    simpa using hd
  · rw [Bool.not_eq_true] at hs
    rw [hs] at hd
    by_cases hrun : input.running
    · rw [loopIteration_eq_heartbeat hs hrun]
      refine ⟨fun h => by simp at h, fun _ => ?_⟩
      simp only [List.countP_append, List.countP_cons, List.countP_nil,
        isSaveAssistant, isDoneRec, isSaveUser]
      simpa using hd
    · rw [Bool.not_eq_true] at hrun
      rw [loopIteration_eq_break hs hrun]
      refine ⟨fun _ => ?_, fun h => absurd rfl h⟩
      simp only [List.countP_append, List.countP_cons, List.countP_nil,
        isSaveAssistant, isDoneRec, isSaveUser]
      simpa using hd

theorem runLoop_counts (cid : String) (script : List IterInput) :
    ∀ s : TurnState,
      (runLoop cid script s).outputs.countP isSaveAssistant =
        (if (runLoop cid script s).terminated then 1 else 0) ∧
      (runLoop cid script s).outputs.countP isDoneRec =
        (if (runLoop cid script s).terminated then 1 else 0) ∧
      (runLoop cid script s).outputs.countP isSaveUser = 0 := by
  induction script with
  | nil => intro s; simp [runLoop]
  | cons input rest ih =>
    intro s
    have hi := loopIteration_counts cid s input
    rcases hn : (loopIteration cid s input).next with _ | s2
    · have := hi.1 hn
      simp only [runLoop, hn] at *
      simpa using this
    · have h0 := hi.2 (by rw [hn]; exact Option.some_ne_none s2)
      have h1 := ih s2
      simp only [runLoop, hn]
      simp only [List.countP_append, h0.1, h0.2.1, h0.2.2]
      simpa using h1

/-- Claim C1: for every turn whose relay loop terminates (first null
sentinel, or liveness loss after an empty drain), the generator makes
exactly one attempt to persist the assistant message, yields exactly one
`done` record, and persisted exactly one user message — regardless of how
many events were relayed. -/
theorem sendMessageStreaming_exactly_once (message : String)
    (conversationId : Option String) (newCid replyId umid : String)
    (script : List IterInput)
    (h : (sendMessageStreaming message conversationId newCid replyId umid script).terminated
          = true) :
    (sendMessageStreaming message conversationId newCid replyId umid
        script).outputs.countP isSaveAssistant = 1 ∧
    (sendMessageStreaming message conversationId newCid replyId umid
        script).outputs.countP isDoneRec = 1 ∧
    (sendMessageStreaming message conversationId newCid replyId umid
        script).outputs.countP isSaveUser = 1 := by
  have hr := runLoop_counts (conversationId.getD newCid) script ⟨[], [], []⟩
  have ht : (runLoop (conversationId.getD newCid) script ⟨[], [], []⟩).terminated = true := h
  rw [ht] at hr
  simp only [sendMessageStreaming, List.countP_cons, isSaveAssistant, isDoneRec, isSaveUser]
  simp only [if_true] at hr
  rw [hr.1, hr.2.1, hr.2.2]
  simp

/-- Witness for C1: a turn whose worker pushes one text chunk and then the
null sentinel terminates, with exactly one assistant persistence attempt,
one `done` record and one user-message persistence. -/
theorem sendMessageStreaming_exactly_once_witness :
    (sendMessageStreaming "hi" none "c1" "r1" "m1"
        [⟨[some (AgentMsg.chunk "He"), some (AgentMsg.chunk "llo"), none], true⟩]).terminated
      = true ∧
    ((sendMessageStreaming "hi" none "c1" "r1" "m1"
        [⟨[some (AgentMsg.chunk "He"), some (AgentMsg.chunk "llo"), none], true⟩]).outputs.countP
          isSaveAssistant = 1 ∧
      (sendMessageStreaming "hi" none "c1" "r1" "m1"
        [⟨[some (AgentMsg.chunk "He"), some (AgentMsg.chunk "llo"), none], true⟩]).outputs.countP
          isDoneRec = 1 ∧
      (sendMessageStreaming "hi" none "c1" "r1" "m1"
        [⟨[some (AgentMsg.chunk "He"), some (AgentMsg.chunk "llo"), none], true⟩]).outputs.countP
          isSaveUser = 1) :=
  ⟨by decide, sendMessageStreaming_exactly_once "hi" none "c1" "r1" "m1" _ (by decide)⟩

theorem drainLoop_no_heartbeat (cid : String) (q : List (Option AgentMsg)) :
    ∀ (b : List String) (e : List TEvent),
      TurnAction.yieldRec OutRec.heartbeat ∉ (drainLoop cid q b e).outputs := by
  induction q with
  | nil => intro b e; simp [drainLoop]
  | cons o rest ih =>
    intro b e
    cases o with
    | none => simp [drainLoop]
    | some m =>
      simp only [drainLoop, List.mem_cons, not_or]
      exact ⟨by simp, ih _ _⟩

/-- Claim C4 counterexample: a heartbeat is yielded by an iteration whose
30-second wait did NOT elapse with nothing pushed — the worker pushed a
chunk during the wait, the chunk was relayed, and because the drained
queue is then empty and the run is still alive the loop yields a
heartbeat immediately, refuting that heartbeats occur only when the wait
elapses with no event having been pushed. -/
theorem heartbeat_without_idle_timeout :
    (loopIteration "c1" ⟨[], [], []⟩ ⟨[some (AgentMsg.chunk "hi")], true⟩).outputs =
      [TurnAction.yieldRec (OutRec.relay (AgentMsg.chunk "hi")),
        TurnAction.yieldRec OutRec.heartbeat] ∧
    ([some (AgentMsg.chunk "hi")] : List (Option AgentMsg)) ≠ [] := by
  constructor
  · decide
  · decide

/-- Claim C4, amended: a heartbeat is yielded at the end of every
iteration in which the drain did not dequeue the sentinel and the run was
observed alive — including iterations in which events were pushed and
relayed before the 30-second wait elapsed — not only on an idle timeout;
and when the wait elapses with nothing pushed (and the queue was empty)
while the run is no longer alive, the loop terminates as if a sentinel had
arrived: it persists the assistant message and yields `done`. -/
theorem loopIteration_heartbeat_iff (cid : String) (s : TurnState) (input : IterInput) :
    (TurnAction.yieldRec OutRec.heartbeat ∈ (loopIteration cid s input).outputs ↔
      ((drainLoop cid (iterQueue s input) s.buffer s.events).sentinelHit = false ∧
        input.running = true)) ∧
    (∀ (b : List String) (e : List TEvent),
      loopIteration cid ⟨[], b, e⟩ ⟨[], false⟩ =
        ⟨[TurnAction.saveAssistant cid (assistantPayloadContent b)
            (mergeAdjacentTextEvents e),
          TurnAction.yieldRec (OutRec.done cid)], none⟩) := by
  constructor
  · have hnh := drainLoop_no_heartbeat cid (iterQueue s input) s.buffer s.events
    by_cases hs : (drainLoop cid (iterQueue s input) s.buffer s.events).sentinelHit
    · rw [loopIteration_eq_sentinel hs]
      simp [hs, hnh]
    · rw [Bool.not_eq_true] at hs
      by_cases hrun : input.running
      · rw [loopIteration_eq_heartbeat hs hrun]
        simp [hs, hrun]
      · rw [Bool.not_eq_true] at hrun
        rw [loopIteration_eq_break hs hrun]
        simp [hs, hrun, hnh]
  · intro b e
    have hs : (drainLoop cid (iterQueue (⟨[], b, e⟩ : TurnState) (⟨[], false⟩ : IterInput)) b e).sentinelHit = false := by
      rfl
    exact loopIteration_eq_break hs rfl

/-- The relay records produced for a list of drained (non-sentinel)
messages. -/
def relayActions (msgs : List AgentMsg) : List TurnAction :=
  msgs.map (fun m => TurnAction.yieldRec (OutRec.relay m))

/-- Claim C10: when the null sentinel is dequeued, the drain loop persists
the assistant message, yields `done` and the generator returns
immediately; everything still queued behind the sentinel (for example a
`title_generated` event pushed after it) is never relayed and never
persisted — the result does not mention `post` at all, and the iteration
finishes (`next = none`). -/
theorem drainLoop_sentinel_discards_rest (cid : String) (pre : List AgentMsg)
    (post : List (Option AgentMsg)) (b : List String) (e : List TEvent)
    (inp : IterInput) :
    drainLoop cid (pre.map some ++ none :: post) b e =
      ⟨relayActions pre ++
          [TurnAction.saveAssistant cid
              (assistantPayloadContent (classifyAll pre b e).1)
              (mergeAdjacentTextEvents (classifyAll pre b e).2),
            TurnAction.yieldRec (OutRec.done cid)],
        (classifyAll pre b e).1, (classifyAll pre b e).2, true⟩ ∧
    (loopIteration cid ⟨pre.map some ++ none :: post, b, e⟩ inp).next = none ∧
    (loopIteration cid ⟨[], b, e⟩ ⟨pre.map some ++ none :: post, inp.running⟩).next = none := by
  have hmain : ∀ (pre : List AgentMsg) (b : List String) (e : List TEvent),
      drainLoop cid (pre.map some ++ none :: post) b e =
        ⟨relayActions pre ++
            [TurnAction.saveAssistant cid
                (assistantPayloadContent (classifyAll pre b e).1)
                (mergeAdjacentTextEvents (classifyAll pre b e).2),
              TurnAction.yieldRec (OutRec.done cid)],
          (classifyAll pre b e).1, (classifyAll pre b e).2, true⟩ := by
    intro pre
    induction pre with
    | nil => intro b e; simp [drainLoop, relayActions, classifyAll]
    | cons m rest ih =>
      intro b e
      have hstep : drainLoop cid ((m :: rest).map some ++ none :: post) b e =
          { outputs := TurnAction.yieldRec (OutRec.relay m) ::
              (drainLoop cid (rest.map some ++ none :: post)
                (classify m b e).1 (classify m b e).2).outputs,
            buffer := (drainLoop cid (rest.map some ++ none :: post)
              (classify m b e).1 (classify m b e).2).buffer,
            events := (drainLoop cid (rest.map some ++ none :: post)
              (classify m b e).1 (classify m b e).2).events,
            sentinelHit := (drainLoop cid (rest.map some ++ none :: post)
              (classify m b e).1 (classify m b e).2).sentinelHit } := rfl
      rw [hstep, ih]
      simp [relayActions, classifyAll]
  refine ⟨hmain pre b e, ?_, ?_⟩
  · have hq : (⟨pre.map some ++ none :: post, b, e⟩ : TurnState).queue.isEmpty = false := by
      cases pre <;> rfl
    have hs : (drainLoop cid
        (iterQueue (⟨pre.map some ++ none :: post, b, e⟩ : TurnState) inp) b e).sentinelHit
          = true := by
      rw [iterQueue, hq]
      simp only [Bool.false_eq_true, if_false]
      rw [hmain pre b e]
    rw [loopIteration_eq_sentinel hs]
  · have hs : (drainLoop cid
        (iterQueue (⟨[], b, e⟩ : TurnState)
          (⟨pre.map some ++ none :: post, inp.running⟩ : IterInput)) b e).sentinelHit
          = true := by
      show (drainLoop cid (([] : List (Option AgentMsg)) ++ pre.map some ++ none :: post) b e).sentinelHit = true
      rw [List.nil_append, hmain pre b e]
    rw [loopIteration_eq_sentinel hs]

/-- Claim C6: for every invocation of `sendMessageStreaming`, the user
message is persisted before any record is yielded to the client stream
(it is the very first action), and the first record yielded is a `start`
record carrying the conversation id — the newly created one when no
conversation id was supplied — and the reply id. -/
theorem sendMessageStreaming_start_record (message : String)
    (conversationId : Option String) (newCid replyId umid : String)
    (script : List IterInput) :
    ((sendMessageStreaming message conversationId newCid replyId umid script).outputs.head? =
        some (TurnAction.saveUser (conversationId.getD newCid) "user" message umid)) ∧
    (((sendMessageStreaming message conversationId newCid replyId umid
          script).outputs.filter isYieldRec).head? =
        some (TurnAction.yieldRec (OutRec.start (conversationId.getD newCid) replyId))) := by
  constructor
  · rfl
  · simp only [sendMessageStreaming, List.filter_cons]
    norm_num [isYieldRec]

/-! ## The process launcher: the stdin write/close block of
`spawnAgentProcess`

The block is, in the source:

    if (child.stdin) {
      try {
        child.stdin.write(params.query + newline);
        child.stdin.end();
        logger.info(...);
      } catch (err) {
        logger.error(...);
      }
    }

A synchronous throw from `write` transfers control to the `catch` before
`end()` runs; the catch only logs, so nothing propagates past the
launcher. -/

/-- Observable effects of the stdin write/close block. -/
structure StdinWriteEffects where
  /-- The query line was written to the worker input channel. -/
  wroteQuery : Bool
  /-- `child.stdin.end()` ran, closing the input channel. -/
  stdinClosed : Bool
  /-- The success log line was emitted. -/
  loggedInfo : Bool
  /-- The failure log line was emitted (from the catch). -/
  loggedError : Bool
deriving DecidableEq

/-- The stdin write/close block of `spawnAgentProcess`. `hasStdin` is the
`if (child.stdin)` guard; `writeThrows` says whether `stdin.write` throws
synchronously. The function is total: no path rethrows past the
launcher. -/
def writeQueryBlock (hasStdin writeThrows : Bool) : StdinWriteEffects :=
  if hasStdin then
    if writeThrows then
      { wroteQuery := false, stdinClosed := false, loggedInfo := false, loggedError := true }
    else
      { wroteQuery := true, stdinClosed := true, loggedInfo := true, loggedError := false }
  else
    { wroteQuery := false, stdinClosed := false, loggedInfo := false, loggedError := false }

/-- Claim C5 counterexample: when the write of the query throws, the catch
block runs instead of `stdin.end()`, so the input channel is NOT closed —
refuting that stdin is always closed after the write attempt even when the
write fails. The failure is logged, as the claim also says. -/
theorem stdin_not_closed_on_write_throw :
    (writeQueryBlock true true).stdinClosed = false ∧
    (writeQueryBlock true true).loggedError = true := by
  decide

/-- Claim C5, amended: when stdin exists, the input channel is closed
exactly when the write succeeds; a synchronous write failure is caught —
it is logged and does not throw past the launcher (the block is a total
function) — but on that path `stdin.end()` is skipped, so the channel is
not closed by the launcher. -/
theorem writeQueryBlock_close_iff (writeThrows : Bool) :
    (writeQueryBlock true writeThrows).stdinClosed = !writeThrows ∧
    (writeQueryBlock true writeThrows).loggedError = writeThrows ∧
    (writeQueryBlock true writeThrows).wroteQuery = !writeThrows := by
  cases writeThrows <;> decide

/-! ## `generateTitle` and its fallback

`generateTitle` (title-generator.ts) calls the completion endpoint and
falls back to `userMessage.slice(0, 10)` on every failure path. The
endpoint interaction is embedded as a `FetchOutcome`: the call threw, the
response was non-success, or it succeeded with an optional content field
(`data.choices?.[0]?.message?.content`). -/

/-- Scan for the first occurrence of the closing tag and return the
characters after it, or `none` when the closing tag never occurs. -/
def findCloseThink : List Char → Option (List Char)
  | [] => none
  | c :: rest =>
      if "</think>".toList.isPrefixOf (c :: rest) then some ((c :: rest).drop 8)
      else findCloseThink rest

theorem findCloseThink_length {l s : List Char} (h : findCloseThink l = some s) :
    s.length ≤ l.length := by
  induction l with
  | nil => simp [findCloseThink] at h
  | cons c rest ih =>
    rw [findCloseThink] at h
    by_cases hp : "</think>".toList.isPrefixOf (c :: rest) = true
    · rw [if_pos hp] at h
      cases h
      rw [List.length_drop]
      omega
    · rw [if_neg hp] at h
      exact Nat.le_succ_of_le (ih h)

set_option linter.unusedVariables false in
/-- Remove every (lazily matched) `<think>...</think>` block, like the
global regex replace in `stripThinkingTags`: at each position, if the
opening tag starts here and a closing tag occurs later, drop through the
first closing tag and continue; otherwise keep the character. -/
def dropThinkBlocks (l : List Char) : List Char :=
  match l with
  | [] => []
  | c :: rest =>
      if "<think>".toList.isPrefixOf (c :: rest) then
        match hfc : findCloseThink ((c :: rest).drop 7) with
        | some suffix => dropThinkBlocks suffix
        | none => c :: dropThinkBlocks rest
      else c :: dropThinkBlocks rest
termination_by l.length
decreasing_by
  · have h1 := findCloseThink_length hfc
    rw [List.length_drop] at h1
    simp only [List.length_cons] at h1 ⊢
    omega
  · simp
  · simp

/-- `stripThinkingTags` from title-generator.ts: strip thinking-mode
markup blocks and trim the result. -/
def stripThinkingTags (text : String) : String :=
  (String.mk (dropThinkBlocks text.toList)).trim

/-- The outcome of the completion-endpoint call as observed by
`generateTitle`. -/
inductive FetchOutcome where
  | threw
  | notOk (status : Nat) (body : String)
  | ok (content : Option String)
deriving DecidableEq

/-- `generateTitle` from title-generator.ts. `apiKey` is the configured
credential (the empty string is the missing/falsy case); `outcome` is the
endpoint interaction. The function is total: it never throws. -/
def generateTitle (userMessage apiKey : String) (outcome : FetchOutcome) : String :=
  if apiKey = "" then userMessage.take 10
  else
    match outcome with
    | .threw => userMessage.take 10
    | .notOk _ _ => userMessage.take 10
    | .ok content =>
        let raw := (content.map String.trim).getD ""
        let title := stripThinkingTags raw
        if title = "" then userMessage.take 10
        else title.take 20

/-- Claim C7: `generateTitle` never throws (it is a total function of the
endpoint outcome), and on any failure of the completion endpoint — missing
API key, a thrown error, a non-success response, or content that is empty
after stripping thinking markup — it returns exactly the first 10
characters of the user message. -/
theorem generateTitle_fallback (userMessage apiKey : String) (outcome : FetchOutcome)
    (h : apiKey = "" ∨ outcome = .threw ∨ (∃ st body, outcome = .notOk st body) ∨
         (∃ c, outcome = .ok c ∧ stripThinkingTags ((c.map String.trim).getD "") = "")) :
    generateTitle userMessage apiKey outcome = userMessage.take 10 := by
  rcases h with hk | ho | ⟨st, body, ho⟩ | ⟨c, ho, hstrip⟩
  · simp [generateTitle, hk]
  · subst ho
    by_cases hk : apiKey = "" <;> simp [generateTitle, hk]
  · subst ho
    by_cases hk : apiKey = "" <;> simp [generateTitle, hk]
  · subst ho
    by_cases hk : apiKey = "" <;> simp [generateTitle, hk, hstrip]

/-- Witness for C7: with an API key present but the endpoint throwing, the
title is the 10-character truncation of the user message. -/
theorem generateTitle_fallback_witness :
    generateTitle "please test my API" "sk-key" FetchOutcome.threw = "please tes" := by
  rw [generateTitle_fallback "please test my API" "sk-key" FetchOutcome.threw
    (Or.inr (Or.inl rfl))]
  rfl

/-! ## The cache-consistent conversation service

`conversation.service.ts` is embedded with an explicit relational store
(`DB`) and an explicit key-value cache (`Cache`). The cache mirrors the
Redis layout: one hash per scope — `CacheKeys.conversations(userId)` and
`CacheKeys.messages(conversationId)` — with one field per page tag
`limit:offset`, read with `hget`, written with `hset`, and invalidated by
deleting the whole key with `del` (scope-wide invalidation). Each
individual Redis call site gets an explicit boolean saying whether that
call throws; `hget`/`hset` sites are wrapped in try/catch in the source,
the `del` sites (inside `invalidateConversationsCache` /
`invalidateMessagesCache`) are not. -/

/-- A conversation row. -/
structure Conversation where
  id : String
  userId : String
  title : String
  updatedAt : Nat
deriving DecidableEq

/-- A message row. -/
structure Msg where
  id : String
  conversationId : String
  role : String
  content : String
  createdAt : Nat
deriving DecidableEq

/-- The relational store. -/
structure DB where
  conversations : List Conversation
  messages : List Msg
deriving DecidableEq

/-- A formatted conversation as returned (and cached) by the list/read
paths: the Prisma query includes `_count.select.messages`, so every page
carries the message count. -/
structure ConvDto where
  id : String
  title : String
  updatedAt : Nat
  messageCount : Nat
deriving DecidableEq

/-- One Redis hash: page tag to serialized page. -/
abbrev PageHash (α : Type) := List (String × α)

/-- The key-value cache: the per-user conversation-list scope and the
per-conversation message-list scope. -/
structure Cache where
  conv : List (String × PageHash (List ConvDto))
  msgs : List (String × PageHash (List Msg))
deriving DecidableEq

/-- Set one field of a hash (Redis `hset`). -/
def hashSet {α : Type} (h : PageHash α) (tag : String) (v : α) : PageHash α :=
  match h with
  | [] => [(tag, v)]
  | (t, w) :: rest => if t == tag then (t, v) :: rest else (t, w) :: hashSet rest tag v

/-- Set one field of one key in a keyspace. -/
def scopeSet {α : Type} (sc : List (String × PageHash α)) (key tag : String) (v : α) :
    List (String × PageHash α) :=
  match sc with
  | [] => [(key, [(tag, v)])]
  | (k, h) :: rest =>
      if k == key then (k, hashSet h tag v) :: rest else (k, h) :: scopeSet rest key tag v

/-- Delete a whole key — every page tag of the scope at once (Redis
`del`). -/
def scopeDel {α : Type} (sc : List (String × PageHash α)) (key : String) :
    List (String × PageHash α) :=
  sc.filter (fun kv => kv.1 != key)

/-- Read one field of one key (Redis `hget`); `none` is a miss. -/
def scopeGet {α : Type} (sc : List (String × PageHash α)) (key tag : String) : Option α :=
  (sc.lookup key).bind (fun h => h.lookup tag)

/-- Errors raised by the service: Prisma not-found, the ownership
rejection, or an uncaught cache-client error. -/
inductive SvcError where
  | notFound
  | forbidden
  | cacheFailure
deriving DecidableEq

/-- `prisma.conversation.findUnique({ where: { id } })`. -/
def convById (db : DB) (conversationId : String) : Option Conversation :=
  db.conversations.find? (fun c => c.id == conversationId)

/-- The message count the Prisma `_count` include computes. -/
def messageCountOf (db : DB) (conversationId : String) : Nat :=
  (db.messages.filter (fun m => m.conversationId == conversationId)).length

/-- `formatConversation` applied to a row with its `_count` include. -/
def formatConversation (db : DB) (c : Conversation) : ConvDto :=
  { id := c.id, title := c.title, updatedAt := c.updatedAt,
    messageCount := messageCountOf db c.id }

/-- Insert into a list sorted by `updatedAt` descending. -/
def insertByUpdatedDesc (c : Conversation) : List Conversation → List Conversation
  | [] => [c]
  | d :: rest =>
      if d.updatedAt ≤ c.updatedAt then c :: d :: rest else d :: insertByUpdatedDesc c rest

/-- `orderBy: { updatedAt: 'desc' }`. -/
def sortByUpdatedDesc (l : List Conversation) : List Conversation :=
  l.foldr insertByUpdatedDesc []

/-- Insert into a list sorted by `createdAt` ascending. -/
def insertByCreatedAsc (m : Msg) : List Msg → List Msg
  | [] => [m]
  | d :: rest =>
      if m.createdAt ≤ d.createdAt then m :: d :: rest else d :: insertByCreatedAsc m rest

/-- `orderBy: { createdAt: 'asc' }`. -/
def sortByCreatedAsc (l : List Msg) : List Msg :=
  l.foldr insertByCreatedAsc []

/-- The store read of `listConversations`: the user's conversations,
newest-updated first, paged with `skip`/`take`, formatted with counts. -/
def listConversationsFromStore (db : DB) (userId : String) (limit offset : Nat) :
    List ConvDto :=
  (((sortByUpdatedDesc (db.conversations.filter (fun c => c.userId == userId))).drop
      offset).take limit).map (formatConversation db)

/-- `listConversations`: try the cache (a throwing `hget` is caught and
treated as a miss), on miss read the store, then write the page back (a
throwing `hset`/`expire` is caught and ignored). Never throws. -/
def listConversations (hgetFails hsetFails : Bool) (db : DB) (cache : Cache)
    (userId : String) (limit offset : Nat) : List ConvDto × Cache :=
  let tag := s!"{limit}:{offset}"
  let cached : Option (List ConvDto) :=
    if hgetFails then none else scopeGet cache.conv userId tag
  match cached with
  | some page => (page, cache)
  | none =>
      let result := listConversationsFromStore db userId limit offset
      let cache2 :=
        if hsetFails then cache
        else { cache with conv := scopeSet cache.conv userId tag result }
      (result, cache2)

/-- `getConversation`: findUnique, not-found check, ownership check,
format. Touches neither the cache nor the store state. -/
def getConversation (db : DB) (conversationId userId : String) :
    Except SvcError ConvDto :=
  match convById db conversationId with
  | none => .error .notFound
  | some c =>
      if c.userId != userId then .error .forbidden
      else .ok (formatConversation db c)

/-- `updateConversation`: findUnique, not-found check, ownership check,
store update, then `invalidateConversationsCache` — whose `del` is NOT
wrapped in try/catch, so a throwing `del` propagates (after the store
write). -/
def updateConversation (delConvFails : Bool) (db : DB) (cache : Cache)
    (conversationId userId title : String) :
    Except SvcError Unit × DB × Cache :=
  match convById db conversationId with
  | none => (.error .notFound, db, cache)
  | some c =>
      if c.userId != userId then (.error .forbidden, db, cache)
      else
        let db2 := { db with
          conversations := db.conversations.map
            (fun d => if d.id == conversationId then { d with title := title } else d) }
        if delConvFails then (.error .cacheFailure, db2, cache)
        else (.ok (), db2, { cache with conv := scopeDel cache.conv userId })

/-- `deleteConversation`: checks, store delete (cascading to messages),
then the two uncaught `del` calls (conversation-list scope first, then
message-list scope). -/
def deleteConversation (delConvFails delMsgsFails : Bool) (db : DB) (cache : Cache)
    (conversationId userId : String) :
    Except SvcError Unit × DB × Cache :=
  match convById db conversationId with
  | none => (.error .notFound, db, cache)
  | some c =>
      if c.userId != userId then (.error .forbidden, db, cache)
      else
        let db2 : DB :=
          { conversations := db.conversations.filter (fun d => d.id != conversationId),
            messages := db.messages.filter (fun m => m.conversationId != conversationId) }
        if delConvFails then (.error .cacheFailure, db2, cache)
        else
          let cache2 := { cache with conv := scopeDel cache.conv userId }
          if delMsgsFails then (.error .cacheFailure, db2, cache2)
          else (.ok (), db2, { cache2 with msgs := scopeDel cache2.msgs conversationId })

/-- `createMessage` (the public, ownership-checked path): checks, message
insert, `updatedAt` touch, then `invalidateMessagesCache` and
`invalidateConversationsCache` — both `del` calls uncaught. `messageId`
stands for the id Prisma generates; `now` for `new Date()`. -/
def createMessage (delMsgsFails delConvFails : Bool) (db : DB) (cache : Cache)
    (conversationId userId role content messageId : String) (now : Nat) :
    Except SvcError Msg × DB × Cache :=
  match convById db conversationId with
  | none => (.error .notFound, db, cache)
  | some c =>
      if c.userId != userId then (.error .forbidden, db, cache)
      else
        let message : Msg :=
          { id := messageId, conversationId := conversationId, role := role,
            content := content, createdAt := now }
        let db2 : DB :=
          { conversations := db.conversations.map
              (fun d => if d.id == conversationId then { d with updatedAt := now } else d),
            messages := db.messages ++ [message] }
        if delMsgsFails then (.error .cacheFailure, db2, cache)
        else
          let cache2 := { cache with msgs := scopeDel cache.msgs conversationId }
          if delConvFails then (.error .cacheFailure, db2, cache2)
          else (.ok message, db2, { cache2 with conv := scopeDel cache2.conv userId })

/-- `listMessages`: checks, then cache lookup / store read / cache write
with both cache call sites caught. -/
def listMessages (hgetFails hsetFails : Bool) (db : DB) (cache : Cache)
    (conversationId userId : String) (limit offset : Nat) :
    Except SvcError (List Msg) × Cache :=
  match convById db conversationId with
  | none => (.error .notFound, cache)
  | some c =>
      if c.userId != userId then (.error .forbidden, cache)
      else
        let tag := s!"{limit}:{offset}"
        let cached : Option (List Msg) :=
          if hgetFails then none else scopeGet cache.msgs conversationId tag
        match cached with
        | some page => (.ok page, cache)
        | none =>
            let result :=
              ((sortByCreatedAsc (db.messages.filter
                  (fun m => m.conversationId == conversationId))).drop offset).take limit
            let cache2 :=
              if hsetFails then cache
              else { cache with msgs := scopeSet cache.msgs conversationId tag result }
            (.ok result, cache2)

/-- `createMessageInternal` (the turn-internal path, no ownership check):
message insert (a missing conversation would fail the insert), `updatedAt`
touch, then `invalidateMessagesCache` only — the user conversation-list
scope is NOT invalidated (the function does not even receive the user
id). -/
def createMessageInternal (delMsgsFails : Bool) (db : DB) (cache : Cache)
    (conversationId role content : String) (messageId : Option String)
    (generatedId : String) (now : Nat) :
    Except SvcError Msg × DB × Cache :=
  match convById db conversationId with
  | none => (.error .notFound, db, cache)
  | some _ =>
      let message : Msg :=
        { id := messageId.getD generatedId, conversationId := conversationId,
          role := role, content := content, createdAt := now }
      let db2 : DB :=
        { conversations := db.conversations.map
            (fun d => if d.id == conversationId then { d with updatedAt := now } else d),
          messages := db.messages ++ [message] }
      if delMsgsFails then (.error .cacheFailure, db2, cache)
      else (.ok message, db2, { cache with msgs := scopeDel cache.msgs conversationId })

deriving instance DecidableEq for Except

theorem lookup_scopeDel {α : Type} (sc : List (String × PageHash α)) (key : String) :
    List.lookup key (scopeDel sc key) = none := by
  induction sc with
  | nil => rfl
  | cons kv rest ih =>
    by_cases hk : kv.1 = key
    · have h1 : (kv.1 != key) = false := by simp [hk]
      simp only [scopeDel, List.filter_cons, h1, Bool.false_eq_true, if_false] at ih ⊢
      exact ih
    · have h1 : (kv.1 != key) = true := by simp [hk]
      have h2 : (key == kv.1) = false := by
        simp [(Ne.symm hk)]
      rcases kv with ⟨k, v⟩
      simp only [scopeDel, List.filter_cons, h1, if_true]
      simp only at h2
      rw [List.lookup]
      rw [h2]
      exact ih

theorem scopeGet_scopeDel {α : Type} (sc : List (String × PageHash α)) (key tag : String) :
    scopeGet (scopeDel sc key) key tag = none := by
  unfold scopeGet
  rw [lookup_scopeDel]
  rfl

/-- Claim C2 counterexample: a `listConversations` page (message count 0)
is cached; `createMessageInternal` then appends a message — the write
returns successfully — but it only invalidates the message-list scope, so
the subsequent `listConversations` read returns the cached page still
showing message count 0 while the store holds 1 message. This refutes
that every message-creating mutation deletes the owning user
conversation-list scope and that no subsequent read returns a pre-write
page. -/
theorem stale_count_after_internal_append :
    (listConversations false false
        (createMessageInternal false
          ⟨[{ id := "c1", userId := "u1", title := "t", updatedAt := 0 }], []⟩
          (listConversations false false
            ⟨[{ id := "c1", userId := "u1", title := "t", updatedAt := 0 }], []⟩
            ⟨[], []⟩ "u1" 100 0).2
          "c1" "user" "hi" (some "m1") "g1" 1).2.1
        (createMessageInternal false
          ⟨[{ id := "c1", userId := "u1", title := "t", updatedAt := 0 }], []⟩
          (listConversations false false
            ⟨[{ id := "c1", userId := "u1", title := "t", updatedAt := 0 }], []⟩
            ⟨[], []⟩ "u1" 100 0).2
          "c1" "user" "hi" (some "m1") "g1" 1).2.2
        "u1" 100 0).1
      = [{ id := "c1", title := "t", updatedAt := 0, messageCount := 0 }] ∧
    (createMessageInternal false
        ⟨[{ id := "c1", userId := "u1", title := "t", updatedAt := 0 }], []⟩
        (listConversations false false
          ⟨[{ id := "c1", userId := "u1", title := "t", updatedAt := 0 }], []⟩
          ⟨[], []⟩ "u1" 100 0).2
        "c1" "user" "hi" (some "m1") "g1" 1).1
      = .ok { id := "m1", conversationId := "c1", role := "user", content := "hi",
              createdAt := 1 } ∧
    messageCountOf
        (createMessageInternal false
          ⟨[{ id := "c1", userId := "u1", title := "t", updatedAt := 0 }], []⟩
          (listConversations false false
            ⟨[{ id := "c1", userId := "u1", title := "t", updatedAt := 0 }], []⟩
            ⟨[], []⟩ "u1" 100 0).2
          "c1" "user" "hi" (some "m1") "g1" 1).2.1 "c1"
      = 1 := by
  decide

/-- Claim C2, amended: every message append deletes the affected
conversation entire message-list cache scope (all page tags at once); the
public `createMessage` additionally deletes the owning user entire
conversation-list scope, after which a `listConversations` read recomputes
from the store; but the turn-internal `createMessageInternal` leaves the
conversation-list scope untouched, so a subsequent `listConversations`
may return a cached page reflecting the pre-write message count. -/
theorem message_append_invalidates_scopes (db : DB) (cache : Cache)
    (c : Conversation) (uid role content mid gid : String)
    (omid : Option String) (now lim off : Nat)
    (hfind : convById db c.id = some c) (howner : c.userId = uid) :
    (List.lookup c.id
        (createMessageInternal false db cache c.id role content omid gid now).2.2.msgs
      = none) ∧
    ((createMessageInternal false db cache c.id role content omid gid now).2.2.conv
      = cache.conv) ∧
    (List.lookup c.id
        (createMessage false false db cache c.id uid role content mid now).2.2.msgs
      = none) ∧
    (List.lookup uid
        (createMessage false false db cache c.id uid role content mid now).2.2.conv
      = none) ∧
    ((listConversations false false
        (createMessage false false db cache c.id uid role content mid now).2.1
        (createMessage false false db cache c.id uid role content mid now).2.2
        uid lim off).1
      = listConversationsFromStore
          (createMessage false false db cache c.id uid role content mid now).2.1
          uid lim off) := by
  have hbne : (c.userId != uid) = false := by simp [howner]
  have hint : (createMessageInternal false db cache c.id role content omid gid now).2.2
      = { cache with msgs := scopeDel cache.msgs c.id } := by
    simp [createMessageInternal, hfind]
  have hpub : (createMessage false false db cache c.id uid role content mid now).2.2
      = { msgs := scopeDel cache.msgs c.id,
          conv := scopeDel cache.conv uid } := by
    simp [createMessage, hfind, hbne]
  refine ⟨?_, ?_, ?_, ?_, ?_⟩
  · rw [hint]
    exact lookup_scopeDel cache.msgs c.id
  · rw [hint]
  · rw [hpub]
    exact lookup_scopeDel cache.msgs c.id
  · rw [hpub]
    exact lookup_scopeDel cache.conv uid
  · rw [hpub]
    unfold listConversations
    simp [scopeGet_scopeDel]

/-- Witness for C2 (amended): concrete run of both paths on a one-row
store. -/
theorem message_append_invalidates_scopes_witness :
    List.lookup "c1"
        (createMessageInternal false
          ⟨[{ id := "c1", userId := "u1", title := "t", updatedAt := 0 }], []⟩
          ⟨[], [("c1", [("100:0", [])])]⟩ "c1" "user" "hi" (some "m1") "g1" 1).2.2.msgs
      = none ∧
    List.lookup "u1"
        (createMessage false false
          ⟨[{ id := "c1", userId := "u1", title := "t", updatedAt := 0 }], []⟩
          ⟨[("u1", [("100:0", [])])], []⟩ "c1" "u1" "user" "hi" "m1" 1).2.2.conv
      = none := by
  have h := message_append_invalidates_scopes
    ⟨[{ id := "c1", userId := "u1", title := "t", updatedAt := 0 }], []⟩
    ⟨[], [("c1", [("100:0", [])])]⟩
    { id := "c1", userId := "u1", title := "t", updatedAt := 0 }
    "u1" "user" "hi" "m1" "g1" (some "m1") 1 100 0 (by decide) rfl
  have h2 := message_append_invalidates_scopes
    ⟨[{ id := "c1", userId := "u1", title := "t", updatedAt := 0 }], []⟩
    ⟨[("u1", [("100:0", [])])], []⟩
    { id := "c1", userId := "u1", title := "t", updatedAt := 0 }
    "u1" "user" "hi" "m1" "g1" (some "m1") 1 100 0 (by decide) rfl
  exact ⟨h.1, h2.2.2.2.1⟩

/-- Claim C3 counterexample: `invalidateMessagesCache` is not wrapped in
try/catch inside `createMessage`, so a throwing cache `del` propagates
out of the business operation — the call fails with the cache error even
though the store write already happened. This refutes that every cache
error is caught and ignored. -/
theorem createMessage_fails_on_cache_del_error :
    (createMessage true false
        ⟨[{ id := "c1", userId := "u1", title := "t", updatedAt := 0 }], []⟩
        ⟨[], []⟩ "c1" "u1" "user" "hi" "m1" 1).1 = .error .cacheFailure ∧
    (createMessage true false
        ⟨[{ id := "c1", userId := "u1", title := "t", updatedAt := 0 }], []⟩
        ⟨[], []⟩ "c1" "u1" "user" "hi" "m1" 1).2.1.messages
      = [{ id := "m1", conversationId := "c1", role := "user", content := "hi",
           createdAt := 1 }] := by
  decide

/-- Claim C3, amended: cache lookup and cache write errors are caught and
ignored — the read paths still return the store-computed result and leave
the cache unchanged — but cache invalidation (`del`) errors are NOT
caught: they propagate out of the surrounding business operation, which
then fails after the store write has already been applied. -/
theorem cache_error_policy (db : DB) (cache : Cache) (c : Conversation)
    (uid role content mid : String) (now lim off : Nat)
    (hfind : convById db c.id = some c) (howner : c.userId = uid) :
    ((listConversations true true db cache uid lim off).1
      = listConversationsFromStore db uid lim off) ∧
    ((listConversations true true db cache uid lim off).2 = cache) ∧
    ((listMessages true true db cache c.id uid lim off).1
      = .ok (((sortByCreatedAsc (db.messages.filter
            (fun m => m.conversationId == c.id))).drop off).take lim)) ∧
    ((listMessages true true db cache c.id uid lim off).2 = cache) ∧
    ((createMessage true false db cache c.id uid role content mid now).1
      = .error .cacheFailure) ∧
    ((createMessage true false db cache c.id uid role content mid now).2.1.messages
      = db.messages ++
          [{ id := mid, conversationId := c.id, role := role, content := content,
             createdAt := now }]) ∧
    ((createMessage true false db cache c.id uid role content mid now).2.2 = cache) := by
  have hbne : (c.userId != uid) = false := by simp [howner]
  refine ⟨?_, ?_, ?_, ?_, ?_, ?_, ?_⟩
  · simp [listConversations]
  · simp [listConversations]
  · simp [listMessages, hfind, hbne]
  · simp [listMessages, hfind, hbne]
  · simp [createMessage, hfind, hbne]
  · simp [createMessage, hfind, hbne]
  · simp [createMessage, hfind, hbne]

/-- Witness for C3 (amended): the read path swallows both cache errors on
a concrete store while the write path fails on the del error. -/
theorem cache_error_policy_witness :
    (listConversations true true
        ⟨[{ id := "c1", userId := "u1", title := "t", updatedAt := 0 }], []⟩
        ⟨[], []⟩ "u1" 100 0).1
      = listConversationsFromStore
          ⟨[{ id := "c1", userId := "u1", title := "t", updatedAt := 0 }], []⟩ "u1" 100 0 ∧
    (createMessage true false
        ⟨[{ id := "c1", userId := "u1", title := "t", updatedAt := 0 }], []⟩
        ⟨[], []⟩ "c1" "u1" "user" "hi" "m1" 1).1 = .error .cacheFailure := by
  have h := cache_error_policy
    ⟨[{ id := "c1", userId := "u1", title := "t", updatedAt := 0 }], []⟩
    ⟨[], []⟩ { id := "c1", userId := "u1", title := "t", updatedAt := 0 }
    "u1" "user" "hi" "m1" 1 100 0 (by decide) rfl
  exact ⟨h.1, h.2.2.2.2.1⟩

/-- Claim C9: every public conversation-scoped operation
(`getConversation`, `updateConversation`, `deleteConversation`,
`createMessage`, `listMessages`) verifies ownership before the main store
or cache access: a missing conversation raises not-found, an ownership
mismatch raises the distinct forbidden error, and on either error the
store and the cache are unchanged — the result is exactly the error with
the original store and cache (for every value of the cache-failure flags,
showing no cache call is even reached). -/
theorem conversation_ops_access_control (db : DB) (cache : Cache)
    (cid uid title role content mid : String) (now lim off : Nat)
    (f1 f2 f3 f4 f5 f6 f7 : Bool)
    (h : convById db cid = none ∨
         ∃ c, convById db cid = some c ∧ c.userId ≠ uid) :
    (getConversation db cid uid =
        .error (if (convById db cid).isNone then SvcError.notFound else SvcError.forbidden)) ∧
    (updateConversation f1 db cache cid uid title =
        (.error (if (convById db cid).isNone then SvcError.notFound else SvcError.forbidden),
          db, cache)) ∧
    (deleteConversation f2 f3 db cache cid uid =
        (.error (if (convById db cid).isNone then SvcError.notFound else SvcError.forbidden),
          db, cache)) ∧
    (createMessage f4 f5 db cache cid uid role content mid now =
        (.error (if (convById db cid).isNone then SvcError.notFound else SvcError.forbidden),
          db, cache)) ∧
    (listMessages f6 f7 db cache cid uid lim off =
        (.error (if (convById db cid).isNone then SvcError.notFound else SvcError.forbidden),
          cache)) := by
  rcases h with h | ⟨c, hc, hne⟩
  · simp [getConversation, updateConversation, deleteConversation, createMessage,
      listMessages, h]
  · have hbne : (c.userId != uid) = true := by simpa using hne
    simp [getConversation, updateConversation, deleteConversation, createMessage,
      listMessages, hc, hbne]

/-- Witness for C9: on an empty store every operation rejects with
not-found and leaves store and cache untouched. -/
theorem conversation_ops_access_control_witness :
    getConversation ⟨[], []⟩ "c1" "u1" = .error SvcError.notFound ∧
    updateConversation true ⟨[], []⟩ ⟨[], []⟩ "c1" "u1" "t2" =
      (.error SvcError.notFound, ⟨[], []⟩, ⟨[], []⟩) ∧
    createMessage true true ⟨[], []⟩ ⟨[], []⟩ "c1" "u1" "user" "hi" "m1" 1 =
      (.error SvcError.notFound, ⟨[], []⟩, ⟨[], []⟩) := by
  have h := conversation_ops_access_control ⟨[], []⟩ ⟨[], []⟩ "c1" "u1" "t2" "user" "hi"
    "m1" 1 100 0 true true true true true true true (Or.inl rfl)
  exact ⟨h.1, h.2.1, h.2.2.2.1⟩

end Autotest
